import Mathlib

/-!
Verification development for the ApoloBilling repository.

Shallow embedding of the parts of the code the claims mention:
* the rating engine `determinar_zona_y_tarifa` (backend/app/services/rating.py),
* the active-call upsert/removal endpoints (backend/app/api/endpoints.py),
* the top-up endpoint and the balance ledger (backend/app/api/routers/accounts.py,
  backend/app/models/billing.py),
* the CDR cost computation (main.py, `create_cdr`),
* the event-socket listener control flow and frame handling
  (connectors/freeswitch/esl_listener.py).

Conventions: `Numeric` (fixed-point decimal) columns are modelled as `ℚ`;
`DateTime` values as `ℕ`; Python `str` as Lean `String`; a database table as a
`List` of rows in insertion order; a Python `dict` whose keys may be absent as a
structure of `Option` fields.
-/

namespace ApoloBilling

/-! ### Rate cards (backend/app/models/billing.py, class RateCard) -/

/-- A row of the `rate_cards` table.  The `destination_prefix` column is named
`prefijo` here; `effective_start`/`effective_end` are `effStart`/`effEnd`. -/
structure RateCard where
  id : Nat
  prefijo : String
  destination_name : String
  rate_per_minute : ℚ
  billing_increment : Nat
  connection_fee : ℚ
  effStart : Nat
  effEnd : Option Nat
  priority : Int
  deriving DecidableEq, Repr

/-! ### Rating engine (backend/app/services/rating.py) -/

/-- The result dictionary returned by `determinar_zona_y_tarifa`. -/
structure ZonaTarifa where
  prefijo_id : Option Nat
  zona_id : Option Nat
  prefijo : String
  zona_nombre : String
  zona_descripcion : String
  tarifa_segundo : ℚ
  tarifa_id : Option Nat
  numero_valido : Bool
  deriving DecidableEq, Repr

/-- Cleaning step `''.join(filter(str.isdigit, numero_marcado))` — keep only
digit characters. -/
def limpiarNumero (s : String) : String :=
  ⟨s.data.filter Char.isDigit⟩

/-- Candidate prefixes `[numero_limpio[:i] for i in range(1, len(numero_limpio) + 1)]` — every
non-empty character-level initial segment of the cleaned number. -/
def posiblesPrefijos (s : String) : List String :=
  (List.range s.length).map (fun i => ⟨s.data.take (i + 1)⟩)

/-- The SQL query
`db.query(RateCard).filter(destination_prefix.in_(posibles_prefijos))`:
rows whose stored destination prefix is one of the candidate strings,
in table (insertion) order. -/
def candidatos (table : List RateCard) (ps : List String) : List RateCard :=
  table.filter (fun rc => ps.contains ( RateCard.prefijo rc))

/-- Selection `matches[0]` after `.order_by(func.length(destination_prefix).desc())`:
the first row of maximal prefix length.  SQL leaves the relative order of
equal-length rows unspecified; the model fixes the stable choice (table order),
so among equal-length rows the earliest one wins, as with a stable sort. -/
def firstMax : List RateCard → Option RateCard
  | [] => none
  | rc :: rest =>
    match firstMax rest with
    | none => some rc
    | some b =>
      if ( RateCard.prefijo b).length > ( RateCard.prefijo rc).length then some b
      else some rc

/-- The lookup `determinar_zona_y_tarifa(numero_marcado, db)` over an explicit rate table.
Note: the query filters only on the destination prefix — the row's
`effective_start`/`effective_end`/`priority` columns are never consulted. -/
def determinar_zona_y_tarifa (numero_marcado : String) (table : List RateCard) :
    ZonaTarifa :=
  let numero_limpio := limpiarNumero numero_marcado
  if numero_limpio.isEmpty then
    { prefijo_id := none
      zona_id := none
      prefijo := "EMPTY"
      zona_nombre := "Desconocida"
      zona_descripcion := "Número vacío"
      tarifa_segundo := 0
      tarifa_id := none
      numero_valido := false }
  else
    match firstMax (candidatos table (posiblesPrefijos numero_limpio)) with
    | some best =>
      { prefijo_id := some best.id
        zona_id := some best.id
        prefijo := RateCard.prefijo best
        zona_nombre := best.destination_name
        zona_descripcion := best.destination_name
        tarifa_segundo := best.rate_per_minute / 60
        tarifa_id := some best.id
        numero_valido := true }
    | none =>
      { prefijo_id := none
        zona_id := none
        prefijo := "UNKNOWN"
        zona_nombre := "Desconocida"
        zona_descripcion := "Número no reconocido: " ++ numero_marcado
        tarifa_segundo := 0
        tarifa_id := none
        numero_valido := false }

/-- Overwrite the validity-window columns of a rate card, leaving every other
column unchanged (used to state that the lookup never reads them). -/
def setEff (s : Nat) (e : Option Nat) (rc : RateCard) : RateCard :=
  { rc with effStart := s, effEnd := e }

/-- Overwrite the priority column of a rate card, leaving every other column
unchanged (used to state that the lookup never reads it). -/
def setPriority (f : RateCard → Int) (rc : RateCard) : RateCard :=
  { rc with priority := f rc }

/-! ### Accounts, top-up, and the balance ledger
(backend/app/models/billing.py, backend/app/api/routers/accounts.py) -/

/-- The fields of the `accounts` table that the top-up endpoint touches. -/
structure Account where
  id : Nat
  account_number : String
  balance : ℚ
  credit_limit : ℚ
  deriving DecidableEq, Repr

/-- A row of the append-only `balance_transactions` table. -/
structure BalanceTransaction where
  account_id : Nat
  amount : ℚ
  previous_balance : ℚ
  new_balance : ℚ
  transaction_type : String
  deriving DecidableEq, Repr

/-- The persistent billing state: the `accounts` table and the
`balance_transactions` table, each in insertion order. -/
structure BillingState where
  accounts : List Account
  transactions : List BalanceTransaction
  deriving DecidableEq, Repr

/-- Replace the first element satisfying `p` by its image under `f`
(SQLAlchemy `query(...).first()` followed by attribute assignment). -/
def updateFirst (p : α → Bool) (f : α → α) : List α → List α
  | [] => []
  | x :: xs => if p x then f x :: xs else x :: updateFirst p f xs

/-- Endpoint `topup_account` (accounts.py lines 79–87): look the account up by id,
404 when absent, otherwise `db_account.balance += amount; db.commit()`.
The endpoint creates no `BalanceTransaction` row, and no other code in the
repository does either. -/
def topup_account (account_id : Nat) (amount : ℚ) (st : BillingState) :
    Except String BillingState :=
  match st.accounts.find? (fun a => a.id == account_id) with
  | none => .error "Account not found"
  | some _ =>
      .ok { st with
        accounts := updateFirst (fun a => a.id == account_id)
          (fun a => { a with balance := a.balance + amount }) st.accounts }

/-- Signed sum of the committed transactions referencing `account_id`. -/
def txnSum (txns : List BalanceTransaction) (account_id : Nat) : ℚ :=
  ((txns.filter (fun t => t.account_id == account_id)).map
    (fun t => t.amount)).sum

/-- The spec's reconciliation invariant for one account: current balance =
initial balance + signed sum of that account's transactions. -/
def reconciled (initial : ℚ) (st : BillingState) (account_id : Nat) : Prop :=
  ∀ a ∈ st.accounts, a.id = account_id →
    a.balance = initial + txnSum st.transactions account_id

/-! ### CDR cost computation (main.py, `create_cdr`) -/

/-- main.py line 1239, step 3 of `create_cdr`:
`cost = (event.duration_billable / 60) * rate_per_minute` — plain per-minute
proration of the billable seconds.  The rate table's `billing_increment` and
`connection_fee` columns are not read by this computation. -/
def create_cdr_cost (duration_billable : Nat) (rate_per_minute : ℚ) : ℚ :=
  ((duration_billable : ℚ) / 60) * rate_per_minute

/-- Modelled from the spec (§4.5 cost model), for comparison with
`create_cdr_cost`:
`cost = connection_fee + rate_per_minute / 60 * ceil(billableSeconds / billing_increment) * billing_increment`,
with the ceiling division written out on naturals. -/
def specCost (connection_fee rate_per_minute : ℚ)
    (billableSeconds billing_increment : Nat) : ℚ :=
  connection_fee + rate_per_minute / 60 *
    ((((billableSeconds + billing_increment - 1) / billing_increment) *
        billing_increment : Nat) : ℚ)

/-! ### Active-call endpoints (backend/app/api/endpoints.py) -/

/-- The columns of the `active_calls` table that the endpoints write. -/
structure ActiveCall where
  call_id : String
  calling_number : Option String
  called_number : Option String
  direction : String
  start_time : Nat
  current_duration : Nat
  current_cost : ℚ
  connection_id : Option String
  last_updated : Nat
  deriving DecidableEq, Repr

/-- The JSON body of `POST /active-calls` (`call_data: dict`); a `none` field
models a key that is absent (or carries a falsy value). -/
structure CallData where
  call_id : Option String
  calling_number : Option String
  called_number : Option String
  destination : Option String
  direction : Option String
  start_time : Option Nat
  duration : Option Nat
  cost : Option ℚ
  connection_id : Option String
  deriving DecidableEq, Repr

/-- The update branch of `report_active_call` (endpoints.py lines 45–49):
`for key, value in call_data.items(): if hasattr(existing_call, key): setattr`.
Only the dict keys that are attributes of `ActiveCall` are written
(`call_id`, `calling_number`, `called_number`, `direction`, `start_time`,
`connection_id`); `destination`, `duration` and `cost` are not attribute
names and are skipped; then `existing_call.last_updated = datetime.now()`. -/
def mergeCall (c : ActiveCall) (d : CallData) (now : Nat) : ActiveCall :=
  { c with
    call_id := (CallData.call_id d).getD c.call_id
    calling_number :=
      if d.calling_number.isSome then d.calling_number else c.calling_number
    called_number :=
      if d.called_number.isSome then d.called_number else c.called_number
    direction := d.direction.getD c.direction
    start_time := d.start_time.getD c.start_time
    connection_id :=
      if d.connection_id.isSome then d.connection_id else c.connection_id
    last_updated := now }

/-- The insert branch of `report_active_call` (endpoints.py lines 51–61):
`called_number` falls back to the `destination` key
(`call_data.get("called_number") or call_data.get("destination")`),
`direction` defaults to "unknown", `start_time` to `datetime.now()`,
`current_duration` to the `duration` key or 0, `current_cost` to the `cost`
key or 0. -/
def newCall (cid : String) (d : CallData) (now : Nat) : ActiveCall :=
  { call_id := cid
    calling_number := d.calling_number
    called_number :=
      if d.called_number.isSome then d.called_number else d.destination
    direction := d.direction.getD "unknown"
    start_time := d.start_time.getD now
    current_duration := d.duration.getD 0
    current_cost := d.cost.getD 0
    connection_id := d.connection_id
    last_updated := now }

/-- Endpoint `report_active_call` (endpoints.py lines 28–70) over an explicit table:
missing `call_id` is an error reply with the table untouched; otherwise the
first row with that `call_id` is merged in place when one exists
(`query.filter(call_id == cid).first()` — upsert), else a new row is
appended.  The rating lookup the endpoint also performs has no effect on the
stored rows (its result is discarded). -/
def report_active_call (d : CallData) (now : Nat) (state : List ActiveCall) :
    String × List ActiveCall :=
  match CallData.call_id d with
  | none => ("error", state)
  | some cid =>
    if state.any (fun c => c.call_id == cid) then
      ("ok", updateFirst (fun c => c.call_id == cid)
        (fun c => mergeCall c d now) state)
    else
      ("ok", state ++ [newCall cid d now])

/-- Endpoint `remove_active_call` (endpoints.py lines 72–79): delete the first row with
the given `call_id` and reply "ok"; when no row matches, reply "not_found"
(a normal JSON reply, not an HTTP error) and leave the table unchanged. -/
def remove_active_call (cid : String) (state : List ActiveCall) :
    String × List ActiveCall :=
  if state.any (fun c => c.call_id == cid) then
    ("ok", state.eraseP (fun c => c.call_id == cid))
  else
    ("not_found", state)

/-- At most one `active_calls` row per call id. -/
def atMostOnePerId (state : List ActiveCall) : Prop :=
  ∀ cid, state.countP (fun c => c.call_id == cid) ≤ 1

/-- Replay a sequence of `POST /active-calls` bodies (each with its arrival
time) against an initially empty table. -/
def replayReports (reports : List (CallData × Nat)) : List ActiveCall :=
  reports.foldl (fun st r => (report_active_call r.1 r.2 st).2) []

/-! ### Event-socket client control flow
(connectors/freeswitch/esl_listener.py, class ESLClient)

The client's control flow is embedded as a step function over explicit
phases.  Each equation records what the corresponding `try`/`except` block
does with the connection when the named outcome occurs in that phase. -/

/-- Where control sits in `ESLClient`: inside `connect` before the socket is
open, inside `authenticate`, inside `listen`, or returned from `connect`
with no further work scheduled. -/
inductive EslPhase
  | connecting
  | authing
  | listening
  | stopped
  deriving DecidableEq, Repr

/-- Outcomes the code branches on: `open_connection` raised / succeeded; the
reply read after sending `auth` contained `+OK accepted` or not; the
listening loop raised. -/
inductive EslEvent
  | connFail
  | connOk
  | authReply (ok : Bool)
  | listenErr
  deriving DecidableEq, Repr

/-- Externally visible actions of the client. -/
inductive EslAction
  | sleepRetry      -- `await asyncio.sleep(5)` before calling `connect()` again
  | sendAuth        -- `auth <password>` command written
  | sendSubscribe   -- `events plain CHANNEL_CREATE ...` written
  | closeConn       -- `self.writer.close()`
  deriving DecidableEq, Repr

/-- One control-flow step of `ESLClient`:
* `connect` lines 23–31: exception → log, `sleep(5)`, `connect()` again;
  success → `authenticate()`.
* `authenticate` lines 33–51: on `auth/request` send `auth`; reply
  `+OK accepted` → `subscribe()` (lines 62–67, sends the event subscription
  and enters `listen()`); otherwise log, `writer.close()` — the loop then
  reads EOF and breaks, `authenticate` and `connect` both return, and the
  program's entry point (`run_until_complete(connect())`) finishes: no retry.
* `listen` lines 69–96: any exception → `writer.close()` then `connect()`
  immediately (no sleep on this path; the 5-second sleep runs only if the
  reconnection attempt itself fails).
Events that cannot occur in a phase leave it unchanged. -/
def eslStep : EslPhase → EslEvent → EslPhase × List EslAction
  | .connecting, .connFail => (.connecting, [.sleepRetry])
  | .connecting, .connOk => (.authing, [])
  | .authing, .authReply true => (.listening, [.sendAuth, .sendSubscribe])
  | .authing, .authReply false => (.stopped, [.sendAuth, .closeConn])
  | .listening, .listenErr => (.connecting, [.closeConn])
  | p, _ => (p, [])

/-- Run a sequence of outcomes through `eslStep`, collecting the actions. -/
def eslRun : EslPhase → List EslEvent → EslPhase × List EslAction
  | p, [] => (p, [])
  | p, e :: es =>
    let step := eslStep p e
    let rest := eslRun step.1 es
    (rest.1, step.2 ++ rest.2)

/-! ### Frame handling in the listening loop
(connectors/freeswitch/esl_listener.py, `listen` and `parse_event_body`) -/

/-- Python `str.strip()`: drop leading and trailing whitespace characters
(written out on the character list so that it evaluates by kernel
reduction). -/
def stripChars (cs : List Char) : List Char :=
  ((cs.dropWhile Char.isWhitespace).reverse.dropWhile Char.isWhitespace).reverse

/-- Stripping `line.strip()` of a whole line. -/
def strip (s : String) : String :=
  ⟨stripChars s.data⟩

/-- The split `line_str.split(":", 1)`, locating the first colon of the line;
`none` when the line has no colon. -/
def splitAtColon : List Char → Option (List Char × List Char)
  | [] => none
  | c :: rest =>
    if c = ':' then some ([], rest)
    else
      match splitAtColon rest with
      | some kv => some (c :: kv.1, kv.2)
      | none => none

/-- First-colon split of a line into stripped key and value. -/
def splitHeader (s : String) : Option (String × String) :=
  match splitAtColon s.data with
  | some kv => some (strip (String.mk kv.1), strip (String.mk kv.2))
  | none => none

/-- Python dict assignment `d[k] = v`: overwrite in place, else append. -/
def dictInsert (k v : String) : List (String × String) → List (String × String)
  | [] => [(k, v)]
  | p :: t => if p.1 = k then (k, v) :: t else p :: dictInsert k v t

/-- Python dict lookup. -/
def dictLookup (k : String) : List (String × String) → Option String
  | [] => none
  | p :: t => if p.1 = k then some p.2 else dictLookup k t

/-- The header-reading loop of `listen` (lines 73–82): lines are stripped;
a blank line — or end of input, where `readline` returns the empty string —
terminates the block; a line with a colon contributes a stripped key/value
pair to the `headers` dict; a line without a colon is skipped. -/
def readHeaders : List String → List (String × String) → List (String × String)
  | [], hs => hs
  | l :: ls, hs =>
    let t := strip l
    if t.isEmpty then hs
    else
      match splitHeader t with
      | some kv => readHeaders ls (dictInsert kv.1 kv.2 hs)
      | none => readHeaders ls hs

/-- Numeric value of one hexadecimal digit. -/
def hexDigitVal (c : Char) : Option Nat :=
  if '0' ≤ c ∧ c ≤ '9' then some (c.toNat - '0'.toNat)
  else if 'a' ≤ c ∧ c ≤ 'f' then some (c.toNat - 'a'.toNat + 10)
  else if 'A' ≤ c ∧ c ≤ 'F' then some (c.toNat - 'A'.toNat + 10)
  else none

/-- Decoding `urllib.parse.unquote` on the characters of a value: each `%xy` with two
hexadecimal digits becomes the character with that code, anything else is
kept verbatim.  (The real `unquote` additionally reassembles multi-byte
UTF-8 sequences; event bodies here are ASCII, where the two agree.) -/
def percentDecode : List Char → List Char
  | [] => []
  | '%' :: a :: b :: rest =>
    match hexDigitVal a, hexDigitVal b with
    | some x, some y => Char.ofNat (16 * x + y) :: percentDecode rest
    | _, _ => '%' :: percentDecode (a :: b :: rest)
  | c :: rest => c :: percentDecode rest

/-- The decoding pass at the end of `parse_event_body` (lines 104–111):
only values containing `%` are decoded. -/
def unquoteIfPercent (v : String) : String :=
  if v.data.contains '%' then ⟨percentDecode v.data⟩ else v

/-- Function `parse_event_body` (lines 98–112): split the body on newlines, keep the
lines with a colon as stripped key/value pairs in a dict, then
percent-decode the values that contain `%`. -/
def parse_event_body (body : String) : List (String × String) :=
  let data := (body.splitOn "\n").foldl
    (fun d line =>
      match splitHeader line with
      | some kv => dictInsert kv.1 kv.2 d
      | none => d)
    []
  data.map (fun kv => (kv.1, unquoteIfPercent kv.2))

/-- What one iteration of the listening loop does with a frame. -/
inductive FrameOutcome
  | protocolError
  | noEvent
  | event (data : List (String × String))
  deriving DecidableEq, Repr

/-- One iteration of `listen`'s `while True` loop (lines 71–91): read the
header block; only `if "Content-Length" in headers:` is the body read,
parsed with `parse_event_body` and handed to `process_event` — a frame
without that header produces no event at all.  `int(...)` raising on a
non-numeric length is the loop's exception path (reconnect). -/
def listenIteration (headerLines : List String) (raw : String) : FrameOutcome :=
  let headers := readHeaders headerLines []
  match dictLookup "Content-Length" headers with
  | none => .noEvent
  | some cl =>
    match cl.toNat? with
    | none => .protocolError
    | some n => .event (parse_event_body ⟨raw.data.take n⟩)

/-! ### Concrete inputs used by the spec's LPM examples -/

/-- The second entry of the spec's example table (prefix "12"). -/
def tarjeta12 : RateCard :=
  ⟨2, "12", "Zona12", 1, 60, 0, 0, none, 0⟩

/-- The spec's example rate table with destination prefixes "1", "12", "123". -/
def tablaLPM : List RateCard :=
  [⟨1, "1", "Zona1", 1, 60, 0, 0, none, 0⟩,
   tarjeta12,
   ⟨3, "123", "Zona123", 1, 60, 0, 0, none, 0⟩]

/-! ## Helper lemmas -/

theorem firstMax_eq_none_iff (l : List RateCard) : firstMax l = none ↔ l = [] := by
  cases l with
  | nil => simp [firstMax]
  | cons rc rest =>
    simp only [firstMax]
    cases hr : firstMax rest with
    | none => simp
    | some b => by_cases hlen : (RateCard.prefijo b).length > (RateCard.prefijo rc).length <;>
        simp [hlen]

theorem firstMax_mem_max (l : List RateCard) (b : RateCard) (h : firstMax l = some b) :
    b ∈ l ∧ ∀ c ∈ l, (RateCard.prefijo c).length ≤ (RateCard.prefijo b).length := by
  induction l generalizing b with
  | nil => simp [firstMax] at h
  | cons rc rest ih =>
    simp only [firstMax] at h
    cases hr : firstMax rest with
    | none =>
      rw [hr] at h
      dsimp only at h
      obtain rfl : rc = b := by injection h
      have hrest : rest = [] := (firstMax_eq_none_iff rest).mp hr
      subst hrest
      simp
    | some b' =>
      rw [hr] at h
      dsimp only at h
      obtain ⟨hmem', hmax'⟩ := ih b' hr
      by_cases hlen : (RateCard.prefijo b').length > (RateCard.prefijo rc).length
      · rw [if_pos hlen] at h
        obtain rfl : b' = b := by injection h
        refine ⟨List.mem_cons_of_mem _ hmem', ?_⟩
        intro c hc
        rcases List.mem_cons.mp hc with rfl | hc
        · exact Nat.le_of_lt hlen
        · exact hmax' c hc
      · rw [if_neg hlen] at h
        obtain rfl : rc = b := by injection h
        refine ⟨List.mem_cons_self _ _, ?_⟩
        intro c hc
        rcases List.mem_cons.mp hc with rfl | hc
        · exact Nat.le_refl _
        · exact Nat.le_trans (hmax' c hc) (Nat.le_of_not_lt hlen)

theorem firstMax_first (l : List RateCard) (b : RateCard) (h : firstMax l = some b) :
    ∃ pre post, l = pre ++ b :: post ∧
      ∀ c ∈ pre, (RateCard.prefijo c).length < (RateCard.prefijo b).length := by
  induction l generalizing b with
  | nil => simp [firstMax] at h
  | cons rc rest ih =>
    simp only [firstMax] at h
    cases hr : firstMax rest with
    | none =>
      rw [hr] at h
      dsimp only at h
      obtain rfl : rc = b := by injection h
      exact ⟨[], rest, rfl, by simp⟩
    | some b' =>
      rw [hr] at h
      dsimp only at h
      by_cases hlen : (RateCard.prefijo b').length > (RateCard.prefijo rc).length
      · rw [if_pos hlen] at h
        injection h with hbb
        subst hbb
        obtain ⟨pre, post, heq, hpre⟩ := ih _ hr
        refine ⟨rc :: pre, post, by rw [heq, List.cons_append], ?_⟩
        intro c hc
        rcases List.mem_cons.mp hc with rfl | hc
        · exact hlen
        · exact hpre c hc
      · rw [if_neg hlen] at h
        obtain rfl : rc = b := by injection h
        exact ⟨[], rest, rfl, by simp⟩

theorem firstMax_map (f : RateCard → RateCard)
    (hf : ∀ rc, RateCard.prefijo (f rc) = RateCard.prefijo rc) (l : List RateCard) :
    firstMax (l.map f) = Option.map f (firstMax l) := by
  induction l with
  | nil => simp [firstMax]
  | cons rc rest ih =>
    cases hr : firstMax rest with
    | none =>
      have hr' : firstMax (rest.map f) = none := by rw [ih, hr]; rfl
      simp only [List.map_cons, firstMax, hr, hr']
      rfl
    | some b =>
      have hr' : firstMax (rest.map f) = some (f b) := by rw [ih, hr]; rfl
      simp only [List.map_cons, firstMax, hr, hr', hf]
      split_ifs <;> rfl

theorem candidatos_map (f : RateCard → RateCard)
    (hf : ∀ rc, RateCard.prefijo (f rc) = RateCard.prefijo rc)
    (table : List RateCard) (ps : List String) :
    candidatos (table.map f) ps = (candidatos table ps).map f := by
  unfold candidatos
  rw [List.filter_map]
  congr 1
  apply List.filter_congr
  intro rc _
  simp [Function.comp, hf]

theorem mem_candidatos (table : List RateCard) (ps : List String) (c : RateCard) :
    c ∈ candidatos table ps ↔ c ∈ table ∧ RateCard.prefijo c ∈ ps := by
  unfold candidatos
  simp [List.mem_filter]

theorem mem_posiblesPrefijos (s p : String) :
    p ∈ posiblesPrefijos s ↔ p.data ≠ [] ∧ p.data <+: s.data := by
  unfold posiblesPrefijos
  simp only [List.mem_map, List.mem_range]
  constructor
  · rintro ⟨i, hi, rfl⟩
    have hlen : i < s.data.length := hi
    constructor
    · intro hemp
      have : (s.data.take (i + 1)).length = 0 := by
        simpa using congrArg List.length hemp
      rw [List.length_take] at this
      omega
    · exact List.take_prefix _ _
  · rintro ⟨hne, hpre⟩
    have hpos : 0 < p.data.length := List.length_pos.mpr hne
    have hle : p.data.length ≤ s.data.length := hpre.length_le
    refine ⟨p.data.length - 1, ?_, ?_⟩
    · show p.data.length - 1 < s.data.length
      omega
    · have hidx : p.data.length - 1 + 1 = p.data.length := by omega
      rw [hidx, ← List.prefix_iff_eq_take.mp hpre]

theorem limpiar_ne_empty_of_some (numero : String) (table : List RateCard)
    (best : RateCard)
    (h : firstMax (candidatos table (posiblesPrefijos (limpiarNumero numero))) =
      some best) :
    (limpiarNumero numero).isEmpty = false := by
  obtain ⟨hmemc, -⟩ := firstMax_mem_max _ _ h
  obtain ⟨-, hps⟩ := (mem_candidatos _ _ _).mp hmemc
  obtain ⟨hne, hpre⟩ := (mem_posiblesPrefijos _ _).mp hps
  rw [Bool.eq_false_iff]
  intro htrue
  have hnil : (limpiarNumero numero) = "" := (String.isEmpty_iff _).mp htrue
  rw [hnil] at hpre
  exact hne (List.prefix_nil.mp hpre)

/-! ## Claims -/

/-- C3: for every destination number whose cleaned digit string is non-empty,
the rating lookup selects, among rate entries whose destination prefix is a
(non-empty) prefix of the cleaned number, an entry of maximal prefix length;
concretely, with entries "1", "12", "123", rating "15551234" matches "1",
"125551234" matches "12", "1235551234" matches "123", and "999" yields an
unrated result. -/
theorem C3_longest_prefix_match :
    (∀ (numero : String) (table : List RateCard) (best : RateCard),
      firstMax (candidatos table (posiblesPrefijos (limpiarNumero numero))) =
          some best →
      best ∈ table ∧
      (RateCard.prefijo best).data ≠ [] ∧
      (RateCard.prefijo best).data <+: (limpiarNumero numero).data ∧
      (∀ rc ∈ table, (RateCard.prefijo rc).data ≠ [] →
        (RateCard.prefijo rc).data <+: (limpiarNumero numero).data →
        (RateCard.prefijo rc).length ≤ (RateCard.prefijo best).length) ∧
      (determinar_zona_y_tarifa numero table).prefijo = RateCard.prefijo best ∧
      (determinar_zona_y_tarifa numero table).tarifa_id = some best.id ∧
      (determinar_zona_y_tarifa numero table).numero_valido = true) ∧
    ((determinar_zona_y_tarifa "15551234" tablaLPM).prefijo = "1" ∧
      (determinar_zona_y_tarifa "15551234" tablaLPM).tarifa_id = some 1) ∧
    ((determinar_zona_y_tarifa "125551234" tablaLPM).prefijo = "12" ∧
      (determinar_zona_y_tarifa "125551234" tablaLPM).tarifa_id = some 2) ∧
    ((determinar_zona_y_tarifa "1235551234" tablaLPM).prefijo = "123" ∧
      (determinar_zona_y_tarifa "1235551234" tablaLPM).tarifa_id = some 3) ∧
    ((determinar_zona_y_tarifa "999" tablaLPM).numero_valido = false ∧
      (determinar_zona_y_tarifa "999" tablaLPM).tarifa_id = none ∧
      (determinar_zona_y_tarifa "999" tablaLPM).prefijo = "UNKNOWN") := by
  refine ⟨?_, by decide, by decide, by decide, by decide⟩
  intro numero table best h
  obtain ⟨hmemc, hmax⟩ := firstMax_mem_max _ _ h
  obtain ⟨htab, hps⟩ := (mem_candidatos _ _ _).mp hmemc
  obtain ⟨hne, hpre⟩ := (mem_posiblesPrefijos _ _).mp hps
  have hclean := limpiar_ne_empty_of_some numero table best h
  refine ⟨htab, hne, hpre, ?_, ?_, ?_, ?_⟩
  · intro rc hrc hrcne hrcpre
    exact hmax rc ((mem_candidatos _ _ _).mpr
      ⟨hrc, (mem_posiblesPrefijos _ _).mpr ⟨hrcne, hrcpre⟩⟩)
  all_goals simp [determinar_zona_y_tarifa, hclean, h]

theorem C3_longest_prefix_match_witness :
    firstMax (candidatos tablaLPM (posiblesPrefijos (limpiarNumero "125551234"))) =
        some tarjeta12 ∧
    tarjeta12 ∈ tablaLPM ∧
    (RateCard.prefijo tarjeta12).data ≠ [] ∧
    (RateCard.prefijo tarjeta12).data <+: (limpiarNumero "125551234").data ∧
    (∀ rc ∈ tablaLPM, (RateCard.prefijo rc).data ≠ [] →
      (RateCard.prefijo rc).data <+: (limpiarNumero "125551234").data →
      (RateCard.prefijo rc).length ≤ (RateCard.prefijo tarjeta12).length) ∧
    (determinar_zona_y_tarifa "125551234" tablaLPM).prefijo =
      RateCard.prefijo tarjeta12 ∧
    (determinar_zona_y_tarifa "125551234" tablaLPM).tarifa_id =
      some tarjeta12.id ∧
    (determinar_zona_y_tarifa "125551234" tablaLPM).numero_valido = true := by
  refine ⟨by decide, ?_⟩
  have h := (C3_longest_prefix_match.1 "125551234" tablaLPM tarjeta12 (by decide))
  exact h

/-- C4 counterexample: the claim says a rate entry whose `effective_end` lies
before `asOf` is never selected; here the single entry has prefix "1" and
`effective_end = 5`, the lookup instant `asOf = 10` lies after it, and the
entry is selected anyway (the query never filters on the validity window). -/
theorem C4_counterexample_expired_entry_selected :
    (5 : Nat) < 10 ∧
    (determinar_zona_y_tarifa "15551234"
      [⟨7, "1", "Expirada", 1, 60, 0, 0, some 5, 0⟩]).tarifa_id = some 7 ∧
    (determinar_zona_y_tarifa "15551234"
      [⟨7, "1", "Expirada", 1, 60, 0, 0, some 5, 0⟩]).numero_valido = true := by
  decide

/-- C4 (amended): the rating lookup applies no temporal filtering at all — its
result is unchanged under arbitrary rewriting of every entry's
`effective_start`/`effective_end`, so validity windows never exclude an
entry and no `asOf` instant plays any role. -/
theorem C4_amended_no_temporal_filter (numero : String) (s : Nat)
    (e : Option Nat) (table : List RateCard) :
    determinar_zona_y_tarifa numero (table.map (setEff s e)) =
      determinar_zona_y_tarifa numero table := by
  have hpres : ∀ rc, RateCard.prefijo (setEff s e rc) = RateCard.prefijo rc :=
    fun _ => rfl
  simp only [determinar_zona_y_tarifa, candidatos_map _ hpres,
    firstMax_map _ hpres]
  cases firstMax (candidatos table (posiblesPrefijos (limpiarNumero numero)))
    with
  | none => rfl
  | some b => rfl

theorem C4_amended_no_temporal_filter_witness :
    determinar_zona_y_tarifa "15551234" (tablaLPM.map (setEff 0 (some 5))) =
      determinar_zona_y_tarifa "15551234" tablaLPM :=
  C4_amended_no_temporal_filter "15551234" 0 (some 5) tablaLPM

/-- C5 counterexample: two entries share the maximal matching prefix "12";
the entry with id 2 has strictly higher priority (5 > 0) but the lookup
selects the entry with id 1 — the query orders by prefix length only, and the
model resolves the tie by table order, not by priority. -/
theorem C5_counterexample_priority_ignored :
    ((⟨2, "12", "Alta", 1, 60, 0, 0, none, 5⟩ : RateCard).priority >
      (⟨1, "12", "Baja", 1, 60, 0, 0, none, 0⟩ : RateCard).priority) ∧
    (determinar_zona_y_tarifa "125551234"
      [⟨1, "12", "Baja", 1, 60, 0, 0, none, 0⟩,
       ⟨2, "12", "Alta", 1, 60, 0, 0, none, 5⟩]).tarifa_id = some 1 ∧
    (determinar_zona_y_tarifa "125551234"
      [⟨1, "12", "Baja", 1, 60, 0, 0, none, 0⟩,
       ⟨2, "12", "Alta", 1, 60, 0, 0, none, 5⟩]).tarifa_id ≠ some 2 := by
  decide

/-- C5 (amended): when several matching entries share the maximal prefix
length, the lookup returns the first such entry in query (table) order — a
deterministic rule for a fixed row order — and priority plays no role: the
result is unchanged under arbitrary reassignment of every entry's priority. -/
theorem C5_amended_first_in_table_order :
    (∀ (numero : String) (table : List RateCard) (best : RateCard),
      firstMax (candidatos table (posiblesPrefijos (limpiarNumero numero))) =
          some best →
      ∃ pre post,
        candidatos table (posiblesPrefijos (limpiarNumero numero)) =
          pre ++ best :: post ∧
        ∀ c ∈ pre,
          (RateCard.prefijo c).length < (RateCard.prefijo best).length) ∧
    (∀ (numero : String) (f : RateCard → Int) (table : List RateCard),
      determinar_zona_y_tarifa numero (table.map (setPriority f)) =
        determinar_zona_y_tarifa numero table) := by
  constructor
  · intro numero table best h
    exact firstMax_first _ _ h
  · intro numero f table
    have hpres : ∀ rc, RateCard.prefijo (setPriority f rc) = RateCard.prefijo rc :=
      fun _ => rfl
    simp only [determinar_zona_y_tarifa, candidatos_map _ hpres,
      firstMax_map _ hpres]
    cases firstMax (candidatos table (posiblesPrefijos (limpiarNumero numero)))
      with
    | none => rfl
    | some b => rfl

theorem C5_amended_first_in_table_order_witness :
    ∃ pre post,
      candidatos tablaLPM (posiblesPrefijos (limpiarNumero "15551234")) =
        pre ++ (⟨1, "1", "Zona1", 1, 60, 0, 0, none, 0⟩ : RateCard) :: post ∧
      ∀ c ∈ pre,
        (RateCard.prefijo c).length <
          (RateCard.prefijo (⟨1, "1", "Zona1", 1, 60, 0, 0, none, 0⟩ : RateCard)).length :=
  C5_amended_first_in_table_order.1 "15551234" tablaLPM _ (by decide)

/-- C6: the rating operation is total (the embedding is a total function) and
returns its explicit fallback records: an empty cleaned number yields the
invalid-number record (zero rate, no matched entry, `numero_valido = false`),
and a cleaned number matching no entry yields the unrated record (zero rate,
sentinel destination name "Desconocida", `numero_valido = false`). -/
theorem C6_total_with_fallbacks (numero : String) (table : List RateCard) :
    (limpiarNumero numero = "" →
      determinar_zona_y_tarifa numero table =
        ⟨none, none, "EMPTY", "Desconocida", "Número vacío", 0, none, false⟩) ∧
    (limpiarNumero numero ≠ "" →
      candidatos table (posiblesPrefijos (limpiarNumero numero)) = [] →
      determinar_zona_y_tarifa numero table =
        ⟨none, none, "UNKNOWN", "Desconocida",
          "Número no reconocido: " ++ numero, 0, none, false⟩) := by
  constructor
  · intro hemp
    have : (limpiarNumero numero).isEmpty = true :=
      (String.isEmpty_iff _).mpr hemp
    simp [determinar_zona_y_tarifa, this]
  · intro hne hcand
    have : (limpiarNumero numero).isEmpty = false := by
      rw [Bool.eq_false_iff]
      intro htrue
      exact hne ((String.isEmpty_iff _).mp htrue)
    simp [determinar_zona_y_tarifa, this, hcand, firstMax]

theorem C6_total_with_fallbacks_witness :
    (limpiarNumero "+-ab" = "" ∧
      determinar_zona_y_tarifa "+-ab" tablaLPM =
        ⟨none, none, "EMPTY", "Desconocida", "Número vacío", 0, none, false⟩) ∧
    (limpiarNumero "999" ≠ "" ∧
      candidatos tablaLPM (posiblesPrefijos (limpiarNumero "999")) = [] ∧
      determinar_zona_y_tarifa "999" tablaLPM =
        ⟨none, none, "UNKNOWN", "Desconocida",
          "Número no reconocido: " ++ "999", 0, none, false⟩) := by
  refine ⟨⟨by decide, ?_⟩, by decide, by decide, ?_⟩
  · exact (C6_total_with_fallbacks "+-ab" tablaLPM).1 (by decide)
  · exact (C6_total_with_fallbacks "999" tablaLPM).2 (by decide) (by decide)

theorem updateFirst_countP (p q : α → Bool) (f : α → α)
    (hpf : ∀ x, p x = true → q (f x) = q x) (l : List α) :
    (updateFirst p f l).countP q = l.countP q := by
  induction l with
  | nil => rfl
  | cons x xs ih =>
    by_cases hp : p x
    · simp only [updateFirst, if_pos hp, List.countP_cons, hpf x hp]
    · simp only [updateFirst, if_neg hp, List.countP_cons, ih]

theorem updateFirst_length (p : α → Bool) (f : α → α) (l : List α) :
    (updateFirst p f l).length = l.length := by
  induction l with
  | nil => rfl
  | cons x xs ih => by_cases hp : p x <;> simp [updateFirst, hp, ih]

theorem report_preserves_atMostOne (d : CallData) (now : Nat)
    (state : List ActiveCall) (h : atMostOnePerId state) :
    atMostOnePerId (report_active_call d now state).2 := by
  unfold report_active_call
  cases hcid : CallData.call_id d with
  | none => exact h
  | some cid =>
    by_cases hex : state.any (fun c => c.call_id == cid)
    · simp only [if_pos hex]
      intro cid'
      rw [updateFirst_countP]
      · exact h cid'
      · intro x hx
        have hm : (mergeCall x d now).call_id = cid := by
          simp [mergeCall, hcid]
        have hx' : x.call_id = cid := by simpa using hx
        rw [hm, hx']
    · simp only [if_neg hex]
      intro cid'
      rw [List.countP_append]
      by_cases hc : ((newCall cid d now).call_id == cid')
      · have hcide : cid = cid' := by simpa [newCall] using hc
        subst hcide
        have h0 : state.countP (fun c => c.call_id == cid) = 0 := by
          rw [List.countP_eq_zero]
          intro a ha
          have := List.any_eq_false.mp (Bool.eq_false_iff.mpr hex) a ha
          simpa using this
        simp [h0, List.countP_cons, hc]
      · have h1 : ([newCall cid d now].countP (fun c => c.call_id == cid')) = 0 := by
          simp [List.countP_cons, hc]
        rw [h1]
        simpa using h cid'

theorem replay_atMostOne_from (reports : List (CallData × Nat))
    (st : List ActiveCall) (h : atMostOnePerId st) :
    atMostOnePerId
      (reports.foldl (fun s r => (report_active_call r.1 r.2 s).2) st) := by
  induction reports generalizing st with
  | nil => exact h
  | cons r rs ih => exact ih _ (report_preserves_atMostOne r.1 r.2 st h)

/-- C7: the active-call endpoint is an idempotent upsert — (i) starting from
an empty table, any sequence of reports leaves at most one tracker record per
call id; (ii) any single report preserves that invariant; (iii) a report
whose call id already has a record merges into it and adds no row (the table
length is unchanged). -/
theorem C7_upsert_never_duplicates :
    (∀ reports : List (CallData × Nat), atMostOnePerId (replayReports reports)) ∧
    (∀ (d : CallData) (now : Nat) (state : List ActiveCall),
      atMostOnePerId state → atMostOnePerId (report_active_call d now state).2) ∧
    (∀ (d : CallData) (now : Nat) (state : List ActiveCall) (cid : String),
      CallData.call_id d = some cid →
      state.any (fun c => c.call_id == cid) = true →
      ((report_active_call d now state).2).length = state.length) := by
  refine ⟨?_, report_preserves_atMostOne, ?_⟩
  · intro reports
    apply replay_atMostOne_from
    intro cid
    simp
  · intro d now state cid hcid hex
    unfold report_active_call
    rw [hcid]
    simp only [if_pos hex]
    exact updateFirst_length _ _ _

theorem C7_upsert_never_duplicates_witness :
    atMostOnePerId
      [⟨"call-1", some "100", some "200", "outbound", 0, 0, 0, none, 0⟩] ∧
    atMostOnePerId (report_active_call
      ⟨some "call-1", none, none, none, some "inbound", none, none, none, none⟩ 7
      [⟨"call-1", some "100", some "200", "outbound", 0, 0, 0, none, 0⟩]).2 := by
  have h1 : atMostOnePerId
      [⟨"call-1", some "100", some "200", "outbound", 0, 0, 0, none, 0⟩] := by
    intro cid
    simp [List.countP_cons, List.countP_nil]
    split <;> simp
  exact ⟨h1, C7_upsert_never_duplicates.2.1
    ⟨some "call-1", none, none, none, some "inbound", none, none, none, none⟩ 7
    _ h1⟩

theorem eraseP_no_match (l : List ActiveCall) (pc : ActiveCall → Bool)
    (h : l.countP pc ≤ 1) : (l.eraseP pc).any pc = false := by
  induction l with
  | nil => rfl
  | cons x xs ih =>
    by_cases hx : pc x
    · rw [List.eraseP_cons_of_pos hx]
      rw [List.any_eq_false]
      intro a ha
      rw [List.countP_cons, if_pos hx] at h
      have h0 : xs.countP pc = 0 := by omega
      have := List.countP_eq_zero.mp h0 a ha
      simpa using this
    · rw [List.eraseP_cons_of_neg hx]
      rw [List.any_cons, Bool.eq_false_iff.mpr hx]
      rw [List.countP_cons, if_neg hx] at h
      simpa using ih (by omega)

/-- C8: removing an active call is idempotent — a removal request for a call
id with no record returns the non-error "not_found" reply and leaves the
table unchanged, so (on a table with at most one row per id) a second
removal of the same id after a successful one is also a harmless
"not_found". -/
theorem C8_removal_idempotent (cid : String) (state : List ActiveCall) :
    (state.any (fun c => c.call_id == cid) = false →
      remove_active_call cid state = ("not_found", state)) ∧
    (atMostOnePerId state →
      remove_active_call cid (remove_active_call cid state).2 =
        ("not_found", (remove_active_call cid state).2)) := by
  have hnf : ∀ s : List ActiveCall, s.any (fun c => c.call_id == cid) = false →
      remove_active_call cid s = ("not_found", s) := by
    intro s hs
    unfold remove_active_call
    rw [hs]
    rfl
  refine ⟨hnf state, ?_⟩
  intro h
  by_cases hex : state.any (fun c => c.call_id == cid)
  · have h2 : remove_active_call cid state =
        ("ok", state.eraseP (fun c => c.call_id == cid)) := by
      unfold remove_active_call
      rw [if_pos hex]
    rw [h2]
    exact hnf _ (eraseP_no_match state _ (h cid))
  · have h2 := hnf state (Bool.eq_false_iff.mpr hex)
    simp [h2]

theorem C8_removal_idempotent_witness :
    (([] : List ActiveCall).any (fun c => c.call_id == "call-9") = false) ∧
    remove_active_call "call-9" [] = ("not_found", []) :=
  ⟨rfl, (C8_removal_idempotent "call-9" []).1 rfl⟩

/-- C9 counterexample: the claim says every failure — including a negative
acknowledgement during the authentication exchange — closes the connection
and retries from the connect step after a fixed delay.  At the concrete
failing input (phase `authing`, reply not `+OK accepted`) the client closes
the connection and stops: the next phase is `stopped`, not `connecting`, and
no retry delay occurs. -/
theorem C9_counterexample_auth_reject_never_retries :
    (eslStep .authing (.authReply false)).1 = .stopped ∧
    (eslStep .authing (.authReply false)).1 ≠ .connecting ∧
    EslAction.closeConn ∈ (eslStep .authing (.authReply false)).2 ∧
    EslAction.sleepRetry ∉ (eslStep .authing (.authReply false)).2 := by
  decide

/-- C9 (amended): a failed connection attempt sleeps the fixed 5-second delay
and retries the connect step; an error in the listening loop closes the
connection and retries from connect immediately (the delay runs only when the
reconnection itself fails); a negative authentication acknowledgement closes
the connection and stops — once stopped, no sequence of further events
produces any action or leaves the stopped phase. -/
theorem C9_amended_retry_behavior (evs : List EslEvent) :
    eslStep .connecting .connFail = (.connecting, [.sleepRetry]) ∧
    eslStep .listening .listenErr = (.connecting, [.closeConn]) ∧
    (eslStep .authing (.authReply false)).1 = .stopped ∧
    eslRun .stopped evs = (.stopped, []) := by
  refine ⟨rfl, rfl, rfl, ?_⟩
  induction evs with
  | nil => rfl
  | cons e es ih =>
    have hstep : eslStep .stopped e = (.stopped, []) := by
      cases e <;> rfl
    simp [eslRun, hstep, ih]

/-- C10: in the listening loop, a decoded frame whose header block carries no
`Content-Length` header produces no event at all, and an event is dispatched
only for frames that do carry one — header-only frames (command replies) are
silently discarded. -/
theorem C10_header_only_frames_produce_no_event :
    (∀ (headerLines : List String) (raw : String),
      dictLookup "Content-Length" (readHeaders headerLines []) = none →
      listenIteration headerLines raw = .noEvent) ∧
    (∀ (headerLines : List String) (raw : String) (d : List (String × String)),
      listenIteration headerLines raw = .event d →
      (dictLookup "Content-Length" (readHeaders headerLines [])).isSome = true) := by
  constructor
  · intro hl raw h
    simp only [listenIteration, h]
  · intro hl raw d h
    cases hcl : dictLookup "Content-Length" (readHeaders hl []) with
    | none =>
      simp only [listenIteration, hcl] at h
      exact FrameOutcome.noConfusion h
    | some cl => rfl

theorem C10_header_only_frames_produce_no_event_witness :
    dictLookup "Content-Length"
      (readHeaders ["Content-Type: command/reply", "Reply-Text: +OK accepted"] []) =
        none ∧
    listenIteration ["Content-Type: command/reply", "Reply-Text: +OK accepted"]
      "Event-Name: CHANNEL_CREATE" = .noEvent :=
  ⟨by decide,
    C10_header_only_frames_produce_no_event.1
      ["Content-Type: command/reply", "Reply-Text: +OK accepted"]
      "Event-Name: CHANNEL_CREATE" (by decide)⟩

/-- C1: evaluation at the failing input.  The account starts with balance 0
and an empty transaction log; a top-up of 10 raises the balance to 10 but
appends no `BalanceTransaction`, so afterwards the balance (10) differs from
initial balance plus the signed transaction sum (0 + 0) and the spec's
reconciliation invariant is violated. -/
theorem C1_topup_breaks_reconciliation :
    topup_account 1 10 ⟨[⟨1, "ACC-1", 0, 0⟩], []⟩ =
      .ok ⟨[⟨1, "ACC-1", 0 + 10, 0⟩], []⟩ ∧
    (0 : ℚ) + 10 = 10 ∧
    txnSum ([] : List BalanceTransaction) 1 = 0 ∧
    ¬ reconciled 0 ⟨[⟨1, "ACC-1", 0 + 10, 0⟩], []⟩ 1 := by
  refine ⟨rfl, by norm_num, rfl, ?_⟩
  intro hrec
  have h := hrec ⟨1, "ACC-1", 0 + 10, 0⟩ (by simp) rfl
  simp only [txnSum, List.filter_nil, List.map_nil, List.sum_nil] at h
  norm_num at h

/-- C2 counterexample: a settled call with billableSeconds = 30 > 0 matched to
an entry with connection fee 1, rate 60 per minute and billing increment 60:
the spec formula prices it at 1 + 60/60·⌈30/60⌉·60 = 61, but the code records
(30/60)·60 = 30. -/
theorem C2_counterexample_cost_formula :
    (0 : Nat) < 30 ∧
    create_cdr_cost 30 60 = 30 ∧
    specCost 1 60 30 60 = 61 ∧
    create_cdr_cost 30 60 ≠ specCost 1 60 30 60 := by
  norm_num [create_cdr_cost, specCost]

/-- C2 (amended): the recorded cost of a settled call is
rate_per_minute / 60 · billableSeconds — straight per-minute proration with
no connection fee and no billing-increment rounding; it coincides with the
spec's formula exactly in the degenerate case connection_fee = 0 and
billing_increment = 1. -/
theorem C2_amended_cost_is_unrounded_proration (b : Nat) (rate : ℚ) :
    create_cdr_cost b rate = rate / 60 * (b : ℚ) ∧
    create_cdr_cost b rate = specCost 0 rate b 1 := by
  constructor
  · unfold create_cdr_cost
    ring
  · unfold create_cdr_cost specCost
    simp
    ring

end ApoloBilling
